import Mathlib

/-!
Verification development for the static-blog generator
(`tools/generate_blog.py`).

The Python source is shallowly embedded.  Pure string manipulation is
translated to Lean functions over `String` and `List Char`.  The two
external libraries the script uses (the Markdown converter and the YAML
loader) are treated as external collaborators and become function
parameters.  The file system is an explicit record of the three inputs
the script reads, and `datetime.now()` is an explicit parameter.  Each
definition carries a note saying which source construct it embeds.
-/

namespace BlogGen

/-- Models a `datetime.datetime` value restricted to its calendar-date
part; the script only ever formats and orders dates at day resolution
(`strptime('%Y-%m-%d')`, `strftime('%B %d, %Y')`, `sorted(key=date)`). -/
structure PDateTime where
  year : Nat
  month : Nat
  day : Nat
  deriving DecidableEq, Inhabited

/-- Chronological strict order on dates, as Python compares `datetime`
values (lexicographic on year, month, day). -/
def dateLt (a b : PDateTime) : Bool :=
  decide (a.year < b.year ∨
    (a.year = b.year ∧ (a.month < b.month ∨ (a.month = b.month ∧ a.day < b.day))))

/-- ASCII whitespace, as matched by `\s` in the source's regexes and by
`str.split()` (the documents are ASCII; exotic Unicode whitespace is out
of scope of the embedding). -/
def isPySpace (c : Char) : Bool :=
  c == ' ' || c == '\t' || c == '\n' || c == '\r' || c == '\x0b' || c == '\x0c'

/-- Helper for `pyWordCount`: counts maximal runs of non-whitespace
characters, which is what `len(md_content.split())` computes. -/
def countWordsGo : List Char → Bool → Nat
  | [], _ => 0
  | c :: cs, inWord =>
    if isPySpace c then countWordsGo cs false
    else (if inWord then 0 else 1) + countWordsGo cs true

/-- Embeds `len(md_content.split())` from `parse_markdown_file`. -/
def pyWordCount (s : String) : Nat := countWordsGo s.data false

/-- Embeds Python's `round(word_count / 200)`.  `n / 200` is an exact
binary float whenever it is a half-integer, so Python's float `round`
agrees with exact rational round-half-to-even, which is what this
function computes. -/
def pyRound200 (n : Nat) : Nat :=
  let d := n / 200
  let r := n % 200
  if r < 100 then d
  else if 100 < r then d + 1
  else if d % 2 = 0 then d else d + 1

/-- Numeric value of an ASCII digit, `none` on non-digits. -/
def digitVal (c : Char) : Option Nat :=
  if c.isDigit then some (c.toNat - 48) else none

/-- Leap-year test used by `datetime`'s day-of-month validation. -/
def isLeap (y : Nat) : Bool :=
  decide ((y % 4 = 0 ∧ y % 100 ≠ 0) ∨ y % 400 = 0)

/-- Days in a month, as validated by the `datetime` constructor. -/
def daysInMonth (y m : Nat) : Nat :=
  if m = 2 then (if isLeap y then 29 else 28)
  else if m = 4 ∨ m = 6 ∨ m = 9 ∨ m = 11 then 30
  else 31

/-- Embeds CPython's `%m` directive of `strptime` (regex
`1[0-2]|0[1-9]|[1-9]`, two-digit alternatives tried first): returns the
month value and the unconsumed characters. -/
def parseMonth : List Char → Option (Nat × List Char)
  | c1 :: c2 :: rest =>
    match digitVal c1, digitVal c2 with
    | some d1, some d2 =>
      if (d1 = 1 ∧ d2 ≤ 2) ∨ (d1 = 0 ∧ 1 ≤ d2) then some (d1 * 10 + d2, rest)
      else if 1 ≤ d1 then some (d1, c2 :: rest)
      else none
    | some d1, none => if 1 ≤ d1 then some (d1, c2 :: rest) else none
    | none, _ => none
  | [c1] =>
    match digitVal c1 with
    | some d1 => if 1 ≤ d1 then some (d1, []) else none
    | none => none
  | [] => none

/-- Embeds CPython's `%d` directive of `strptime` (regex
`3[01]|[12]\d|0[1-9]|[1-9]`, two-digit alternatives tried first). -/
def parseDay : List Char → Option (Nat × List Char)
  | c1 :: c2 :: rest =>
    match digitVal c1, digitVal c2 with
    | some d1, some d2 =>
      if (d1 = 3 ∧ d2 ≤ 1) ∨ d1 = 1 ∨ d1 = 2 ∨ (d1 = 0 ∧ 1 ≤ d2) then
        some (d1 * 10 + d2, rest)
      else if 1 ≤ d1 then some (d1, c2 :: rest)
      else none
    | some d1, none => if 1 ≤ d1 then some (d1, c2 :: rest) else none
    | none, _ => none
  | [c1] =>
    match digitVal c1 with
    | some d1 => if 1 ≤ d1 then some (d1, []) else none
    | none => none
  | [] => none

/-- Embeds `datetime.strptime(date, '%Y-%m-%d')`: four year digits,
a literal dash, `%m`, a dash, `%d`, end of string (strptime raises on
unconverted trailing data), then the `datetime` constructor's range
validation.  `none` models the `ValueError` the call raises. -/
def parseDateStr (s : String) : Option PDateTime :=
  match s.data with
  | c1 :: c2 :: c3 :: c4 :: '-' :: rest =>
    match digitVal c1, digitVal c2, digitVal c3, digitVal c4 with
    | some a, some b, some c, some d =>
      let y := ((a * 10 + b) * 10 + c) * 10 + d
      match parseMonth rest with
      | some (m, '-' :: rest2) =>
        match parseDay rest2 with
        | some (dy, []) =>
          if 1 ≤ y ∧ dy ≤ daysInMonth y m then some ⟨y, m, dy⟩ else none
        | _ => none
      | _ => none
    | _, _, _, _ => none
  | _ => none

/-- English month names for `strftime('%B ...')`. -/
def monthName (m : Nat) : String :=
  (["January", "February", "March", "April", "May", "June", "July",
    "August", "September", "October", "November", "December"]).getD (m - 1) ""

/-- Two-digit zero padding, as `%d` formats the day of month. -/
def pad2 (n : Nat) : String :=
  if n < 10 then "0" ++ toString n else toString n

/-- Embeds `date.strftime('%B %d, %Y')`, the `date_formatted` field. -/
def pyStrftimeLong (d : PDateTime) : String :=
  monthName d.month ++ " " ++ pad2 d.day ++ ", " ++ toString d.year

/-- Values a YAML frontmatter entry can take, as far as the script
inspects them: `isinstance(date, str)`, `isinstance(date, datetime)`
(note PyYAML returns a `datetime.date`, not a `datetime.datetime`, for a
bare `yyyy-mm-dd` scalar, hence the separate `vDate` constructor that
falls through both `isinstance` tests), lists for `tags`, and anything
else. -/
inductive YVal where
  | vStr (s : String)
  | vDate (d : PDateTime)
  | vDatetime (d : PDateTime)
  | vList (items : List YVal)
  | vOther

/-- The parsed frontmatter dictionary (`yaml.safe_load` result). -/
abbrev Frontmatter := List (String × YVal)

/-- Embeds `frontmatter.get(key)` (first binding wins; a Python dict has
unique keys). -/
def lookupY (fm : Frontmatter) (k : String) : Option YVal :=
  match fm.find? (fun kv => kv.1 == k) with
  | some kv => some kv.2
  | none => none

/-- Best-effort `str()` of a YAML scalar as an f-string would render it.
Only the `vStr` case is exercised by the documented format (`title`,
`excerpt`, `image` are strings); the remaining cases are a plausible
rendering of Python's `str()` on the unexercised shapes. -/
def pyStr (v : YVal) : String :=
  match v with
  | YVal.vStr s => s
  | YVal.vDate d => toString d.year ++ "-" ++ pad2 d.month ++ "-" ++ pad2 d.day
  | YVal.vDatetime d =>
    toString d.year ++ "-" ++ pad2 d.month ++ "-" ++ pad2 d.day ++ " 00:00:00"
  | YVal.vList _ => ""
  | YVal.vOther => ""

/-- Embeds `frontmatter.get('tags', [])` as consumed by iteration.  A
list yields its elements; a string value would be iterated
character-by-character by the renderers, which the char-list case
reflects; other non-iterable values would only raise later, at render
time, and are unexercised by the documented format. -/
def toTags (v : Option YVal) : List String :=
  match v with
  | none => []
  | some (YVal.vList l) => l.map pyStr
  | some (YVal.vStr s) => s.data.map (fun c => String.mk [c])
  | some _ => []

/-- Embeds `frontmatter.get(key, dflt)` for the string-valued fields. -/
def getStrD (fm : Frontmatter) (k dflt : String) : String :=
  match lookupY fm k with
  | none => dflt
  | some v => pyStr v

/-- Embeds the date-resolution branch of `parse_markdown_file`:
a string is fed to `strptime` (whose `ValueError` is uncaught, modelled
as `none`); a `datetime` passes through; anything else — including a
missing key and PyYAML's `datetime.date` — falls back to
`datetime.now()`. -/
def dateOf (fm : Frontmatter) (now : PDateTime) : Option PDateTime :=
  match lookupY fm "date" with
  | some (YVal.vStr s) => parseDateStr s
  | some (YVal.vDatetime d) => some d
  | _ => some now

/-- Indices (descending) of newline characters inside the maximal
leading whitespace run of `l`.  These are the positions where, after a
greedy-with-backtracking `\s*`, the following `\n` of the source's
frontmatter regex can match; greedy order tries the largest first. -/
def nlIdxsDesc (l : List Char) : List Nat :=
  let w := l.takeWhile isPySpace
  ((List.range w.length).filter (fun i => w.getD i ' ' == '\n')).reverse

/-- Embeds matching the closing `\n---\s*\n` of the frontmatter regex at
the head of `l`: on success returns the text after the match (greedy
`\s*\n` consumes through the last newline of the whitespace run). -/
def closeAt : List Char → Option (List Char)
  | '\n' :: '-' :: '-' :: '-' :: r =>
    match nlIdxsDesc r with
    | j :: _ => some (r.drop (j + 1))
    | [] => none
  | _ => none

/-- Embeds the lazy group `(.*?)` followed by `\n---\s*\n` (with
`re.DOTALL`): scans for the earliest position where the closing sequence
matches, returning the group text and the text after the whole match. -/
def findClose : List Char → Option (List Char × List Char)
  | [] => none
  | c :: cs =>
    match closeAt (c :: cs) with
    | some body => some ([], body)
    | none =>
      match findClose cs with
      | some (g, b) => some (c :: g, b)
      | none => none

/-- Backtracking over the opening `\s*\n` choice points (largest
whitespace consumption first, per greedy semantics). -/
def tryOpens (rest : List Char) : List Nat → Option (List Char × List Char)
  | [] => none
  | i :: is =>
    match findClose (rest.drop (i + 1)) with
    | some gb => some gb
    | none => tryOpens rest is

/-- Embeds `re.match(r'^---\s*\n(.*?)\n---\s*\n', content, re.DOTALL)`
from `parse_markdown_file`: on success returns the frontmatter group and
the text after the whole match (`content[frontmatter_match.end():]`). -/
def fmMatch (content : String) : Option (String × String) :=
  match content.data with
  | '-' :: '-' :: '-' :: rest =>
    match tryOpens rest (nlIdxsDesc rest) with
    | some (g, b) => some (String.mk g, String.mk b)
    | none => none
  | _ => none

/-- The Post record built by `parse_markdown_file` (the `filepath` entry
of the Python dict is the source path and is subsumed by `slug`). -/
structure Post where
  title : String
  date : PDateTime
  date_formatted : String
  tags : List String
  excerpt : String
  image : String
  content : String
  reading_time : Nat
  slug : String
  deriving DecidableEq, Inhabited

/-- Outcome of `parse_markdown_file` on one source document: a Post; a
warned skip (`return None` on missing or malformed frontmatter); or an
uncaught exception (`ValueError` from `strptime` on a bad date string),
which aborts the whole process. -/
inductive ParseResult where
  | ok (p : Post)
  | skip
  | crash
  deriving DecidableEq

/-- Outcome of the external `yaml.safe_load` call on the frontmatter
block: a raised `yaml.YAMLError` (the only exception the source
catches); a mapping (a Python dict); or a successful parse whose result
is not a mapping — a plain scalar, a sequence, or `None` for an empty
block.  In the last case the dict has no `.get`, so the source's
`frontmatter.get('title', ...)` raises an uncaught `AttributeError`. -/
inductive YamlResult where
  | err (msg : String)
  | mapping (fm : Frontmatter)
  | nonMapping

/-- Embeds `parse_markdown_file`.  `md2html` is the external Markdown
converter (`markdown.Markdown(extensions=...).convert`), `yamlLoad` the
external `yaml.safe_load` (whose outcomes `YamlResult` classifies),
`now` is `datetime.now()`, `slug` is `filepath.stem` and `content` the
file text.  A non-mapping frontmatter value crashes at the first
`frontmatter.get` attribute access, since only `yaml.YAMLError` is
caught. -/
def parse_markdown_file (md2html : String → String)
    (yamlLoad : String → YamlResult)
    (now : PDateTime) (slug : String) (content : String) : ParseResult :=
  match fmMatch content with
  | none => ParseResult.skip
  | some (fmText, md_content) =>
    match yamlLoad fmText with
    | YamlResult.err _ => ParseResult.skip
    | YamlResult.nonMapping => ParseResult.crash
    | YamlResult.mapping frontmatter =>
      let html_content := md2html md_content
      let word_count := pyWordCount md_content
      let reading_time := max 1 (pyRound200 word_count)
      match dateOf frontmatter now with
      | none => ParseResult.crash
      | some date =>
        ParseResult.ok {
          title := getStrD frontmatter "title" "Untitled"
          date := date
          date_formatted := pyStrftimeLong date
          tags := toTags (lookupY frontmatter "tags")
          excerpt := getStrD frontmatter "excerpt" ""
          image := getStrD frontmatter "image" ""
          content := html_content
          reading_time := reading_time
          slug := slug }

/-- The `\x7b\x7btitle\x7d\x7d` template token (braces written as hex
escapes). -/
def titleTok : String := "\x7b\x7btitle\x7d\x7d"

/-- The date template token. -/
def dateTok : String := "\x7b\x7bdate\x7d\x7d"

/-- The reading-time template token. -/
def readingTimeTok : String := "\x7b\x7breading_time\x7d\x7d"

/-- The tags template token. -/
def tagsHtmlTok : String := "\x7b\x7btags_html\x7d\x7d"

/-- The excerpt template token. -/
def excerptTok : String := "\x7b\x7bexcerpt\x7d\x7d"

/-- The content template token. -/
def contentTok : String := "\x7b\x7bcontent\x7d\x7d"

/-- The previous-post template token. -/
def prevPostTok : String := "\x7b\x7bprev_post\x7d\x7d"

/-- The next-post template token. -/
def nextPostTok : String := "\x7b\x7bnext_post\x7d\x7d"

/-- The header-image template token. -/
def headerImageTok : String := "\x7b\x7bheader_image\x7d\x7d"

/-- Helper for `pyReplace`: replaces every non-overlapping occurrence of
`pat`, scanning left to right, exactly as Python's `str.replace`.  The
fuel argument is instantiated with the input length, which always
suffices because each step consumes at least one character.  (Python's
behaviour on an empty pattern is not reproduced; every pattern the
script passes is a non-empty token.) -/
def replGo (pat rep : List Char) : Nat → List Char → List Char
  | _, [] => []
  | 0, l => l
  | fuel + 1, c :: cs =>
    if pat.isPrefixOf (c :: cs) && !pat.isEmpty then
      rep ++ replGo pat rep fuel (cs.drop (pat.length - 1))
    else c :: replGo pat rep fuel cs

/-- Embeds Python's `s.replace(old, new)`. -/
def pyReplace (s old rep : String) : String :=
  String.mk (replGo old.data rep.data s.data.length s.data)

/-- Embeds `generate_tags_html`: one article-tag badge per tag, joined
by newlines. -/
def generate_tags_html (tags : List String) : String :=
  String.intercalate "\n"
    (tags.map (fun tag => "<span class=\"article-tag\">" ++ tag ++ "</span>"))

/-- First index of a post with the given slug, if any (the generator
expression inside `next(...)` in `generate_article_html`). -/
def firstSlugIdx (slug : String) : List Post → Option Nat
  | [] => none
  | p :: ps =>
    if p.slug == slug then some 0
    else (firstSlugIdx slug ps).map (· + 1)

/-- Embeds `next((i for i, p in enumerate(sorted_posts) if p['slug'] ==
post['slug']), -1)`: the first matching index, or `-1`. -/
def currentIdxOf (slug : String) (l : List Post) : Int :=
  match firstSlugIdx slug l with
  | some i => (i : Int)
  | none => -1

/-- Post comparison used for the newest-first sort: `a` may precede `b`
exactly when `a`'s date is not strictly older.  A stable sort under this
relation is what Python's `sorted(posts, key=lambda x: x['date'],
reverse=True)` produces. -/
def postGe (a b : Post) : Prop := dateLt a.date b.date = false

instance : DecidableRel postGe := fun a b => by unfold postGe; infer_instance

/-- Embeds `sorted(posts, key=lambda x: x['date'], reverse=True)`.
Insertion sort is stable, so it coincides with Python's stable sort. -/
def sortPostsDesc (posts : List Post) : List Post :=
  List.insertionSort postGe posts

/-- The previous-post link fragment (`prev_html` f-string). -/
def prevLinkHtml (p : Post) : String :=
  "<a href=\"" ++ p.slug ++ ".html\" class=\"article-nav-link\">\n            ← Previous\n            <span>" ++ p.title ++ "</span>\n        </a>"

/-- The next-post link fragment (`next_html` f-string). -/
def nextLinkHtml (p : Post) : String :=
  "<a href=\"" ++ p.slug ++ ".html\" class=\"article-nav-link\" style=\"text-align: right; margin-left: auto;\">\n            Next →\n            <span>" ++ p.title ++ "</span>\n        </a>"

/-- Embeds the `prev_html` computation of `generate_article_html`:
`if current_idx < len(sorted_posts) - 1: prev_post =
sorted_posts[current_idx + 1]`, else the empty string. -/
def prevFragment (sorted_posts : List Post) (current_idx : Int) : String :=
  if current_idx < (sorted_posts.length : Int) - 1 then
    prevLinkHtml (sorted_posts.getD (current_idx + 1).toNat default)
  else ""

/-- Embeds the `next_html` computation of `generate_article_html`:
`if current_idx > 0: next_post = sorted_posts[current_idx - 1]`, else
the empty string. -/
def nextFragment (sorted_posts : List Post) (current_idx : Int) : String :=
  if 0 < current_idx then
    nextLinkHtml (sorted_posts.getD (current_idx - 1).toNat default)
  else ""

/-- Embeds `generate_article_html`: sorts all posts newest first,
locates the target by slug, derives the neighbour fragments, then
performs the fixed sequence of global text replacements in source
order (title, date, reading_time, tags_html, excerpt, content,
prev_post, next_post, header_image). -/
def generate_article_html (post : Post) (template : String)
    (all_posts : List Post) : String :=
  let sorted_posts := sortPostsDesc all_posts
  let current_idx := currentIdxOf post.slug sorted_posts
  let prev_html := prevFragment sorted_posts current_idx
  let next_html := nextFragment sorted_posts current_idx
  let html := pyReplace template titleTok post.title
  let html := pyReplace html dateTok post.date_formatted
  let html := pyReplace html readingTimeTok (toString post.reading_time)
  let html := pyReplace html tagsHtmlTok (generate_tags_html post.tags)
  let html := pyReplace html excerptTok post.excerpt
  let html := pyReplace html contentTok post.content
  let html := pyReplace html prevPostTok prev_html
  let html := pyReplace html nextPostTok next_html
  let header_image_html :=
    if post.image ≠ "" then
      "<div class=\"article-header-image\"><img src=\"../../blog/images/" ++ post.image ++ "\" alt=\"" ++ post.title ++ "\"></div>"
    else ""
  pyReplace html headerImageTok header_image_html

/-- The card's tag fragment from `generate_blog_card`: the first tag
only, or nothing (`if post['tags']: tags_html = f'...{post["tags"][0]}
...'`). -/
def cardTagHtml : List String → String
  | [] => ""
  | t :: _ => "<span class=\"blog-card-tag\">" ++ t ++ "</span>"

/-- The placeholder graphic used when a post has no image. -/
def blogCardImagePlaceholder : String :=
  "<div class=\"blog-card-image-placeholder\">\n        <svg xmlns=\"http://www.w3.org/2000/svg\" viewBox=\"0 0 24 24\" fill=\"none\" stroke=\"currentColor\" stroke-width=\"1.5\" stroke-linecap=\"round\" stroke-linejoin=\"round\">\n            <path d=\"M14.5 2H6a2 2 0 0 0-2 2v16a2 2 0 0 0 2 2h12a2 2 0 0 0 2-2V7.5L14.5 2z\"></path>\n            <polyline points=\"14 2 14 8 20 8\"></polyline>\n            <line x1=\"16\" y1=\"13\" x2=\"8\" y2=\"13\"></line>\n            <line x1=\"16\" y1=\"17\" x2=\"8\" y2=\"17\"></line>\n            <line x1=\"10\" y1=\"9\" x2=\"8\" y2=\"9\"></line>\n        </svg>\n    </div>"

/-- The calendar icon inside a card's date line. -/
def cardDateSvg : String :=
  "<svg xmlns=\"http://www.w3.org/2000/svg\" width=\"14\" height=\"14\" viewBox=\"0 0 24 24\" fill=\"none\" stroke=\"currentColor\" stroke-width=\"2\" stroke-linecap=\"round\" stroke-linejoin=\"round\"><rect x=\"3\" y=\"4\" width=\"18\" height=\"18\" rx=\"2\" ry=\"2\"></rect><line x1=\"16\" y1=\"2\" x2=\"16\" y2=\"6\"></line><line x1=\"8\" y1=\"2\" x2=\"8\" y2=\"6\"></line><line x1=\"3\" y1=\"10\" x2=\"21\" y2=\"10\"></line></svg>"

/-- The arrow icon next to a card's read-more link. -/
def cardArrowSvg : String :=
  "<svg xmlns=\"http://www.w3.org/2000/svg\" width=\"16\" height=\"16\" viewBox=\"0 0 24 24\" fill=\"none\" stroke=\"currentColor\" stroke-width=\"2\" stroke-linecap=\"round\" stroke-linejoin=\"round\"><line x1=\"5\" y1=\"12\" x2=\"19\" y2=\"12\"></line><polyline points=\"12 5 19 12 12 19\"></polyline></svg>"

/-- Embeds `generate_blog_card`: the summary card of one post in the
listing page, rendered from the f-string in the source (real image if
`post['image']` is truthy, placeholder graphic otherwise; only the
first tag is shown). -/
def generate_blog_card (post : Post) : String :=
  let tags_html := cardTagHtml post.tags
  let image_html :=
    if post.image ≠ "" then
      "<img src=\"blog/images/" ++ post.image ++ "\" alt=\"" ++ post.title ++ "\" class=\"blog-card-image\">"
    else blogCardImagePlaceholder
  "<article class=\"blog-card\">\n    " ++ image_html ++ "\n    <div class=\"blog-card-content\">\n        <div class=\"blog-card-meta\">\n            <span class=\"blog-card-date\">\n                " ++ cardDateSvg ++ "\n                " ++ post.date_formatted ++ "\n            </span>\n            " ++ tags_html ++ "\n        </div>\n        <h2 class=\"blog-card-title\">\n            <a href=\"blog/articles/" ++ post.slug ++ ".html\">" ++ post.title ++ "</a>\n        </h2>\n        <p class=\"blog-card-excerpt\">" ++ post.excerpt ++ "</p>\n        <a href=\"blog/articles/" ++ post.slug ++ ".html\" class=\"blog-card-link\">\n            Read more\n            " ++ cardArrowSvg ++ "\n        </a>\n    </div>\n</article>"

/-- The literal group 1 of the listing regex:
`<div class="blog-posts" id="blog-posts">`. -/
def openTagL : List Char := ("<div class=\"blog-posts\" id=\"blog-posts\">").data

/-- The `</div>` literal of the listing regex's closing sequence. -/
def divCloseL : List Char := ("</div>").data

/-- The `</main>` literal of the listing regex's closing sequence. -/
def mainCloseL : List Char := ("</main>").data

/-- The literal text the replacement template inserts between the cards
and group 2 (`\n` plus twelve spaces, from `f'\\1\n{cards_html}\n            \\2'`). -/
def padL : List Char := ("\n            ").data

/-- Consumes a literal prefix, or fails. -/
def dropLit (lit l : List Char) : Option (List Char) :=
  if lit.isPrefixOf l then some (l.drop lit.length) else none

/-- Embeds matching `</div>\s*</div>\s*</main>` (group 2 of the listing
regex) at the head of `l`: returns the matched text and the rest.  Both
`\s*` are deterministic here because the following literals start with
`<`, which is not whitespace, so the greedy run can never backtrack into
a successful shorter match. -/
def matchCloseSeq (l : List Char) : Option (List Char × List Char) :=
  match dropLit divCloseL l with
  | none => none
  | some r1 =>
    let w1 := r1.takeWhile isPySpace
    match dropLit divCloseL (r1.dropWhile isPySpace) with
    | none => none
    | some r2 =>
      let w2 := r2.takeWhile isPySpace
      match dropLit mainCloseL (r2.dropWhile isPySpace) with
      | none => none
      | some r3 =>
        some (divCloseL ++ w1 ++ divCloseL ++ w2 ++ mainCloseL, r3)

/-- Embeds the lazy `.*?` (with `re.DOTALL`) between the two groups of
the listing regex: finds the earliest position where the closing
sequence matches, returning the inner text, the matched closing text and
the rest. -/
def findCloseList : List Char → Option (List Char × List Char × List Char)
  | [] => none
  | c :: cs =>
    match matchCloseSeq (c :: cs) with
    | some (m, r) => some ([], m, r)
    | none =>
      match findCloseList cs with
      | some (inner, m, r) => some (c :: inner, m, r)
      | none => none

/-- Scans for the first full match of the listing regex
`(<div class="blog-posts" id="blog-posts">).*?(</div>\s*</div>\s*</main>)`,
returning the text before the match, the inner region, the matched
closing text and the text after the match.  As in `re`, a position where
the opening literal matches but no closing sequence follows is skipped
and scanning resumes one character later. -/
def splitMatch : List Char → Option (List Char × List Char × List Char × List Char)
  | [] => none
  | c :: cs =>
    if openTagL.isPrefixOf (c :: cs) then
      match findCloseList ((c :: cs).drop openTagL.length) with
      | some (inner, m, r) => some ([], inner, m, r)
      | none =>
        match splitMatch cs with
        | some (pre, inner, m, r) => some (c :: pre, inner, m, r)
        | none => none
    else
      match splitMatch cs with
      | some (pre, inner, m, r) => some (c :: pre, inner, m, r)
      | none => none

/-- One element of a parsed `re.sub` replacement template: a literal
character, or a reference to a capture group. -/
inductive TItem where
  | lit (c : Char)
  | grp (n : Nat)
  deriving DecidableEq

/-- Octal digit test for the template parser. -/
def isOct (c : Char) : Bool := decide ('0' ≤ c ∧ c ≤ '7')

/-- Value of an octal (or decimal) digit character. -/
def octVal (c : Char) : Nat := c.toNat - 48

/-- Decimal value of a digit run (used for `\g<number>` names). -/
def digitsVal (name : List Char) : Nat :=
  name.foldl (fun a c => a * 10 + (c.toNat - 48)) 0

/-- The control characters CPython's template parser accepts after a
backslash (`\a \b \f \n \r \t \v`). -/
def escLetter (c : Char) : Option Char :=
  if c == 'a' then some (Char.ofNat 7)
  else if c == 'b' then some (Char.ofNat 8)
  else if c == 'f' then some (Char.ofNat 12)
  else if c == 'n' then some '\n'
  else if c == 'r' then some (Char.ofNat 13)
  else if c == 't' then some '\t'
  else if c == 'v' then some (Char.ofNat 11)
  else none

/-- Embeds CPython's `re` replacement-template parser (`parse_template`)
for a pattern with two capture groups, which is how `re.sub` treats the
replacement string built in `update_blog_listing` — including any
backslashes arriving through the interpolated `cards_html`.  After a
backslash: `\g<number>` with number at most 2 is a group reference
(other names raise); `\0` starts an octal escape of up to two more
octal digits; three octal digits are an octal escape (above 255
raises); one or two decimal digits are a group reference, valid only
for groups 1 and 2 (otherwise `invalid group reference`); `\\` is a
backslash; the letter escapes of `escLetter` are control characters;
any other ASCII letter is a `bad escape` (raises); any other character
is kept together with its backslash.  `none` models the raised
`re.error`/`IndexError`, which the script does not catch.  The first
argument is fuel, instantiated with a second copy of the template
itself: each step consumes at least one template character and exactly
one fuel cell, so the copy always suffices. -/
def parseTemplGo : List Char → List Char → Option (List TItem)
  | _, [] => some []
  | [], _ :: _ => none
  | _ :: fl, c :: rest =>
    if c == '\\' then
      match rest with
      | [] => none
      | e :: rest2 =>
        if e == 'g' then
          match rest2 with
          | '<' :: rest3 =>
            (match rest3.dropWhile (fun ch => ch != '>') with
             | '>' :: rest4 =>
               let name := rest3.takeWhile (fun ch => ch != '>')
               if !name.isEmpty && name.all Char.isDigit && digitsVal name ≤ 2 then
                 (parseTemplGo fl rest4).map (fun ts => TItem.grp (digitsVal name) :: ts)
               else none
             | _ => none)
          | _ => none
        else if e == '0' then
          match rest2 with
          | c2 :: c3 :: rest4 =>
            if isOct c2 && isOct c3 then
              (parseTemplGo fl rest4).map
                (fun ts => TItem.lit (Char.ofNat (octVal c2 * 8 + octVal c3)) :: ts)
            else if isOct c2 then
              (parseTemplGo fl (c3 :: rest4)).map
                (fun ts => TItem.lit (Char.ofNat (octVal c2)) :: ts)
            else
              (parseTemplGo fl rest2).map (fun ts => TItem.lit (Char.ofNat 0) :: ts)
          | [c2] =>
            if isOct c2 then
              (parseTemplGo fl []).map (fun ts => TItem.lit (Char.ofNat (octVal c2)) :: ts)
            else
              (parseTemplGo fl [c2]).map (fun ts => TItem.lit (Char.ofNat 0) :: ts)
          | [] => (parseTemplGo fl []).map (fun ts => TItem.lit (Char.ofNat 0) :: ts)
        else if e.isDigit then
          match rest2 with
          | c2 :: rest3 =>
            if c2.isDigit then
              match rest3 with
              | c3 :: rest4 =>
                if isOct e && isOct c2 && isOct c3 then
                  if octVal e * 64 + octVal c2 * 8 + octVal c3 ≤ 255 then
                    (parseTemplGo fl rest4).map
                      (fun ts =>
                        TItem.lit (Char.ofNat (octVal e * 64 + octVal c2 * 8 + octVal c3)) :: ts)
                  else none
                else none
              | [] => none
            else
              if octVal e ≤ 2 then
                (parseTemplGo fl rest2).map (fun ts => TItem.grp (octVal e) :: ts)
              else none
          | [] =>
            if octVal e ≤ 2 then
              (parseTemplGo fl []).map (fun ts => TItem.grp (octVal e) :: ts)
            else none
        else if e == '\\' then
          (parseTemplGo fl rest2).map (fun ts => TItem.lit '\\' :: ts)
        else
          match escLetter e with
          | some ch => (parseTemplGo fl rest2).map (fun ts => TItem.lit ch :: ts)
          | none =>
            if e.isAlpha then none
            else (parseTemplGo fl rest2).map
              (fun ts => TItem.lit '\\' :: TItem.lit e :: ts)
    else
      (parseTemplGo fl rest).map (fun ts => TItem.lit c :: ts)

/-- The replacement string `re.sub` receives from `update_blog_listing`:
`f'\\1\n{cards_html}\n            \\2'` — a group-1 reference, a
newline, the card markup, a newline with twelve spaces, and a group-2
reference. -/
def replTemplate (cards : List Char) : List Char :=
  '\\' :: '1' :: '\n' :: (cards ++ padL ++ ['\\', '2'])

/-- Expands a parsed template at one match: group 0 is the whole match,
group 1 the opening literal, group 2 the matched closing sequence. -/
def expandItems (g0 g1 g2 : List Char) : List TItem → List Char
  | [] => []
  | TItem.lit c :: rest => c :: expandItems g0 g1 g2 rest
  | TItem.grp 0 :: rest => g0 ++ expandItems g0 g1 g2 rest
  | TItem.grp 1 :: rest => g1 ++ expandItems g0 g1 g2 rest
  | TItem.grp 2 :: rest => g2 ++ expandItems g0 g1 g2 rest
  | TItem.grp (_ + 3) :: rest => expandItems g0 g1 g2 rest

/-- Helper for `reSubStr`: replaces every non-overlapping match of the
listing regex with the expanded replacement template, as `re.sub` does.
The fuel is instantiated with the input length, which always suffices
because every match consumes at least the opening literal. -/
def reSubGo (items : List TItem) : Nat → List Char → List Char
  | 0, l => l
  | fuel + 1, l =>
    match splitMatch l with
    | none => l
    | some (pre, inner, m, r) =>
      pre ++ expandItems (openTagL ++ inner ++ m) openTagL m items
        ++ reSubGo items fuel r

/-- Embeds `re.sub(pattern, replacement, blog_html, flags=re.DOTALL)`
from `update_blog_listing`.  The replacement template is parsed first —
`re.sub` raises on a bad template even when the pattern never matches —
and `none` models that uncaught exception. -/
def reSubStr (cards : String) (blog_html : String) : Option String :=
  match parseTemplGo (replTemplate cards.data) (replTemplate cards.data) with
  | none => none
  | some items => some (String.mk (reSubGo items blog_html.data.length blog_html.data))

/-- The placeholder rendered when there are no posts. -/
def noPostsMsg : String := "<p class=\"no-posts\">No posts yet. Check back soon!</p>"

/-- Embeds the `cards_html` computation of `update_blog_listing`: cards
for the posts sorted newest first, joined by newlines, or the
no-posts placeholder. -/
def cardsHtml (posts : List Post) : String :=
  let sorted_posts := sortPostsDesc posts
  if sorted_posts.isEmpty then noPostsMsg
  else String.intercalate "\n" (sorted_posts.map generate_blog_card)

/-- Outcome of `update_blog_listing`: the listing file is missing (print
plus early return, nothing written); the new content was written; or
`re.sub` raised on the replacement template (uncaught, aborting the
process). -/
inductive ListingResult where
  | noFile
  | written (content : String)
  | reError
  deriving DecidableEq

/-- Embeds `update_blog_listing`: `listing` is the current content of
`blog.html` if the file exists.  A missing file prints an error and
returns without writing (`if not BLOG_HTML_PATH.exists(): ...; return`);
otherwise the marker region is re-spliced by `re.sub` — which may raise
on backslashes inside the card markup — and the file rewritten. -/
def update_blog_listing (listing : Option String) (posts : List Post) :
    ListingResult :=
  match listing with
  | none => ListingResult.noFile
  | some blog_html =>
    match reSubStr (cardsHtml posts) blog_html with
    | none => ListingResult.reError
    | some s => ListingResult.written s

/-- The input side of the file system as the script reads it: the
template file, the listing file (each `none` when missing) and the
`*.md` files of the posts directory as (stem, content) pairs in
discovery order. -/
structure FS where
  template : Option String
  listing : Option String
  mdFiles : List (String × String)

/-- Observable outcome of one run of `main`: whether the process
terminated normally (`False` covers `sys.exit(1)` on a missing template
and any uncaught exception), the article files written to
`blog/articles` as (name, content) pairs, and the content written to
`blog.html`, if any. -/
structure RunResult where
  exitOk : Bool
  articles : List (String × String)
  listingOut : Option String
  deriving DecidableEq

/-- Embeds the parsing loop of `main`: parse every markdown file,
keeping the successfully parsed posts in order and dropping warned
skips; an uncaught exception anywhere aborts the run before any output
is written (`none`). -/
def collectPosts (md2html : String → String)
    (yamlLoad : String → YamlResult) (now : PDateTime) :
    List (String × String) → Option (List Post)
  | [] => some []
  | (stem, content) :: rest =>
    match parse_markdown_file md2html yamlLoad now stem content with
    | ParseResult.crash => none
    | ParseResult.skip => collectPosts md2html yamlLoad now rest
    | ParseResult.ok p =>
      match collectPosts md2html yamlLoad now rest with
      | none => none
      | some ps => some (p :: ps)

/-- Combines the listing outcome with the already-written article files
into the run's observable result: a raised exception inside the listing
update terminates the process abnormally, after the articles were
already written. -/
def finishRun (arts : List (String × String)) (lr : ListingResult) : RunResult :=
  match lr with
  | ListingResult.noFile => ⟨true, arts, none⟩
  | ListingResult.written s => ⟨true, arts, some s⟩
  | ListingResult.reError => ⟨false, arts, none⟩

/-- Embeds `main`: a missing template exits with status 1 before any
output; with no markdown files, or none that parse, only the listing is
updated (to the empty state); otherwise one article page per post is
written and then the listing updated.  An uncaught exception from
`parse_markdown_file` aborts the run before any write; one from the
listing update aborts it after the article pages were written. -/
def main (md2html : String → String)
    (yamlLoad : String → YamlResult)
    (now : PDateTime) (fs : FS) : RunResult :=
  match fs.template with
  | none => ⟨false, [], none⟩
  | some template =>
    if fs.mdFiles.isEmpty then
      finishRun [] (update_blog_listing fs.listing [])
    else
      match collectPosts md2html yamlLoad now fs.mdFiles with
      | none => ⟨false, [], none⟩
      | some [] => finishRun [] (update_blog_listing fs.listing [])
      | some posts =>
        finishRun
          (posts.map (fun p => (p.slug ++ ".html", generate_article_html p template posts)))
          (update_blog_listing fs.listing posts)

/-- Identity Markdown converter, a concrete instantiation of the
external converter parameter for concrete scenarios. -/
def md2htmlId : String → String := fun s => s

/-- Splits a character list at the first colon. -/
def splitAtColon : List Char → Option (List Char × List Char)
  | [] => none
  | ':' :: rest => some ([], rest)
  | c :: rest => (splitAtColon rest).map (fun pr => (c :: pr.1, pr.2))

/-- Strips leading and trailing spaces. -/
def trimSpaces (l : List Char) : List Char :=
  ((l.dropWhile (· == ' ')).reverse.dropWhile (· == ' ')).reverse

/-- One `key: value` line to a string-valued binding. -/
def yamlLineToKV (line : List Char) : Option (String × YVal) :=
  match splitAtColon line with
  | none => none
  | some (k, v) => some (String.mk (trimSpaces k), YVal.vStr (String.mk (trimSpaces v)))

/-- Splits a character list at newlines. -/
def splitLinesGo : List Char → List Char → List (List Char)
  | [], acc => [acc.reverse]
  | '\n' :: rest, acc => acc.reverse :: splitLinesGo rest []
  | c :: rest, acc => splitLinesGo rest (c :: acc)

/-- All lines as `key: value` bindings, or `none` when some line has no
colon. -/
def yamlLinesToFm : List (List Char) → Option Frontmatter
  | [] => some []
  | l :: rest =>
    match yamlLineToKV l, yamlLinesToFm rest with
    | some kv, some fm => some (kv :: fm)
    | _, _ => none

/-- A simple concrete stand-in for the external YAML loader, used to
instantiate the abstract `yamlLoad` parameter in concrete scenarios:
a block of `key: value` lines becomes a mapping of string values; an
empty block (PyYAML returns `None`) or a block with a colon-free line
(PyYAML returns a plain scalar) is a non-mapping success. -/
def yamlSimple (s : String) : YamlResult :=
  match (splitLinesGo s.data []).filter (fun l => !l.isEmpty) with
  | [] => YamlResult.nonMapping
  | lines =>
    match yamlLinesToFm lines with
    | some fm => YamlResult.mapping fm
    | none => YamlResult.nonMapping

/-- Modelled from the claim for comparison purposes: a simultaneous
single-pass substitution in which substituted values are inert (a token
occurring inside a substituted value is not itself replaced).  Helper
carrying the fuel, instantiated with the input length. -/
def simulGo (subs : List (List Char × List Char)) : Nat → List Char → List Char
  | _, [] => []
  | 0, l => l
  | fuel + 1, c :: cs =>
    match subs.find? (fun pr => pr.1.isPrefixOf (c :: cs)) with
    | some pr => pr.2 ++ simulGo subs fuel (cs.drop (pr.1.length - 1))
    | none => c :: simulGo subs fuel cs

/-- Modelled from the claim for comparison purposes: simultaneous
substitution of the nine template tokens, each token occurrence in the
template itself replaced by its value in one pass. -/
def simulSubst (template : String) (post : Post)
    (prev_html next_html header_html : String) : String :=
  String.mk (simulGo
    [(titleTok.data, post.title.data),
     (dateTok.data, post.date_formatted.data),
     (readingTimeTok.data, (toString post.reading_time).data),
     (tagsHtmlTok.data, (generate_tags_html post.tags).data),
     (excerptTok.data, post.excerpt.data),
     (contentTok.data, post.content.data),
     (prevPostTok.data, prev_html.data),
     (nextPostTok.data, next_html.data),
     (headerImageTok.data, header_html.data)]
    template.data.length template.data)

/-- Template exercising the substitution order: it contains a title
token and a content token. -/
def demoTemplate10 : String := "A\x7b\x7btitle\x7d\x7dB\x7b\x7bcontent\x7d\x7dC"

/-- Post whose title is the literal text of the content token. -/
def demoPost10 : Post :=
  { title := "\x7b\x7bcontent\x7d\x7d"
    date := ⟨2026, 1, 1⟩
    date_formatted := "January 01, 2026"
    tags := []
    excerpt := ""
    image := ""
    content := "X"
    reading_time := 1
    slug := "p" }

/-- C4: for every source document whose frontmatter parses into a Post,
`reading_time` is `max(1, round(word_count / 200))` where `word_count`
counts the whitespace-separated tokens of the raw Markdown body after
the closing frontmatter delimiter, and in particular `reading_time ≥ 1`. -/
theorem c4_reading_time (md2html : String → String)
    (yamlLoad : String → YamlResult)
    (now : PDateTime) (slug content fmText body : String) (p : Post)
    (hfm : fmMatch content = some (fmText, body))
    (hok : parse_markdown_file md2html yamlLoad now slug content = ParseResult.ok p) :
    p.reading_time = max 1 (pyRound200 (pyWordCount body)) ∧ 1 ≤ p.reading_time := by
  unfold parse_markdown_file at hok
  rw [hfm] at hok
  dsimp only at hok
  cases hyl : yamlLoad fmText with
  | err e => rw [hyl] at hok; simp at hok
  | nonMapping => rw [hyl] at hok; simp at hok
  | mapping fm =>
    rw [hyl] at hok
    dsimp only at hok
    cases hd : dateOf fm now with
    | none => simp [hd] at hok
    | some d =>
      rw [hd] at hok
      rw [ParseResult.ok.injEq] at hok
      subst hok
      exact ⟨rfl, Nat.le_max_left 1 _⟩

/-- C4 witness: a concrete document with a two-word body. -/
theorem c4_witness :
    ∃ p, parse_markdown_file md2htmlId yamlSimple ⟨2026, 1, 1⟩ "w"
        ("---\ntitle: T\n---\nhello world") = ParseResult.ok p
      ∧ p.reading_time = max 1 (pyRound200 (pyWordCount "hello world"))
      ∧ 1 ≤ p.reading_time := by
  have hok : parse_markdown_file md2htmlId yamlSimple ⟨2026, 1, 1⟩ "w"
      ("---\ntitle: T\n---\nhello world")
      = ParseResult.ok
        { title := "T", date := ⟨2026, 1, 1⟩,
          date_formatted := "January 01, 2026", tags := [], excerpt := "",
          image := "", content := "hello world", reading_time := 1,
          slug := "w" } := by decide
  have h := c4_reading_time md2htmlId yamlSimple ⟨2026, 1, 1⟩ "w"
      ("---\ntitle: T\n---\nhello world") "title: T" "hello world" _
      (by decide) hok
  exact ⟨_, hok, h⟩

/-- C9: a card shows exactly one badge with the first tag — the card of
a post with tags `t :: rest` equals the card of the same post with tags
`[t]` — the card of a post with no tags shows no badge, and the article
page's `tags_html` carries one badge per tag joined by newlines. -/
theorem c9_card_first_tag_only (p : Post) (t : String) (rest : List String) :
    generate_blog_card { p with tags := t :: rest }
        = generate_blog_card { p with tags := [t] }
      ∧ cardTagHtml (t :: rest) = "<span class=\"blog-card-tag\">" ++ t ++ "</span>"
      ∧ cardTagHtml ([] : List String) = ""
      ∧ generate_tags_html (t :: rest)
        = String.intercalate "\n"
            ((t :: rest).map (fun tag => "<span class=\"article-tag\">" ++ tag ++ "</span>")) :=
  ⟨rfl, rfl, rfl, rfl⟩

/-- C10: article rendering is a fixed sequence of global replacements in
source order, so values are not inert — with a template `A{{title}}B{{content}}C`
and a post whose title is the literal text `{{content}}`, the later
content substitution rewrites the token that arrived via the title
value, and the result differs from a simultaneous substitution. -/
theorem c10_sequential_substitution :
    generate_article_html demoPost10 demoTemplate10 [demoPost10] = "AXBXC"
      ∧ simulSubst demoTemplate10 demoPost10 "" "" ""
        = "A\x7b\x7bcontent\x7d\x7dBXC"
      ∧ generate_article_html demoPost10 demoTemplate10 [demoPost10]
        ≠ simulSubst demoTemplate10 demoPost10 "" "" "" :=
  ⟨by decide, by decide, by decide⟩

/-- True when the frontmatter's date entry is a string or a `datetime`
value, i.e. when `parse_markdown_file`'s date branch does not consult
`datetime.now()`. -/
def dateGivenB (fm : Frontmatter) : Bool :=
  match lookupY fm "date" with
  | some (YVal.vStr _) => true
  | some (YVal.vDatetime _) => true
  | _ => false

/-- A file whose parse raises poisons the whole collection. -/
theorem collectPosts_crash (md2html : String → String)
    (yamlLoad : String → YamlResult)
    (now : PDateTime) (stem c : String)
    (h : parse_markdown_file md2html yamlLoad now stem c = ParseResult.crash) :
    ∀ pre suf, collectPosts md2html yamlLoad now (pre ++ (stem, c) :: suf) = none := by
  intro pre
  induction pre with
  | nil => intro suf; simp only [List.nil_append, collectPosts, h]
  | cons hd tl ih =>
    intro suf
    obtain ⟨s0, c0⟩ := hd
    simp only [List.cons_append, collectPosts, List.append_eq]
    rw [ih]
    cases parse_markdown_file md2html yamlLoad now s0 c0 <;> rfl

/-- An uncaught exception in `parse_markdown_file` anywhere in the file
list aborts the whole run before any output is written. -/
theorem main_crash_abort (md2html : String → String)
    (yamlLoad : String → YamlResult)
    (now : PDateTime) (stem c : String)
    (h : parse_markdown_file md2html yamlLoad now stem c = ParseResult.crash) :
    ∀ (t : String) (l : Option String) (pre suf : List (String × String)),
      main md2html yamlLoad now ⟨some t, l, pre ++ (stem, c) :: suf⟩
        = ⟨false, [], none⟩ := by
  intro t l pre suf
  unfold main
  dsimp only
  have hne : ¬ ((pre ++ (stem, c) :: suf).isEmpty = true) := by
    simp [List.isEmpty_iff]
  rw [if_neg hne, collectPosts_crash md2html yamlLoad now stem c h pre suf]

/-- C1 as corrected: when the metadata date is missing — or present but
neither a string nor a datetime value (PyYAML date objects, null,
lists) — the Loader succeeds and the Post's date defaults to the
current date; but a date string that `strptime('%Y-%m-%d')` rejects
raises an uncaught `ValueError`, failing the file and aborting the
entire run with no output. -/
theorem c1_amended_date_policy (md2html : String → String)
    (yamlLoad : String → YamlResult)
    (now : PDateTime) (slug content fmText body : String) (fm : Frontmatter)
    (hfm : fmMatch content = some (fmText, body))
    (hyl : yamlLoad fmText = YamlResult.mapping fm) :
    (dateGivenB fm = false →
      ∃ p, parse_markdown_file md2html yamlLoad now slug content = ParseResult.ok p
        ∧ p.date = now)
    ∧ (∀ s, lookupY fm "date" = some (YVal.vStr s) → parseDateStr s = none →
        parse_markdown_file md2html yamlLoad now slug content = ParseResult.crash)
    ∧ (parse_markdown_file md2html yamlLoad now slug content = ParseResult.crash →
        ∀ (tp : String) (l : Option String) (pre suf : List (String × String)),
          main md2html yamlLoad now ⟨some tp, l, pre ++ (slug, content) :: suf⟩
            = ⟨false, [], none⟩) := by
  refine ⟨?_, ?_, ?_⟩
  · intro hd
    unfold parse_markdown_file
    rw [hfm]
    dsimp only
    rw [hyl]
    dsimp only
    have hdo : dateOf fm now = some now := by
      unfold dateOf
      unfold dateGivenB at hd
      cases hl : lookupY fm "date" with
      | none => rfl
      | some v =>
        rw [hl] at hd
        cases v with
        | vStr s => exact absurd hd (by simp)
        | vDatetime d => exact absurd hd (by simp)
        | vDate d => rfl
        | vList items => rfl
        | vOther => rfl
    rw [hdo]
    exact ⟨_, rfl, rfl⟩
  · intro s hd hps
    unfold parse_markdown_file
    rw [hfm]
    dsimp only
    rw [hyl]
    dsimp only
    have hdo : dateOf fm now = none := by
      unfold dateOf; rw [hd]; dsimp only; exact hps
    rw [hdo]
  · intro hcrash tp l pre suf
    exact main_crash_abort md2html yamlLoad now slug content hcrash tp l pre suf

/-- C1 counterexample to the claim as stated: on a document whose date
string `24-02-2026` does not parse, the Loader does not succeed with a
defaulted date — it raises, and the whole run aborts with no output. -/
theorem c1_counterexample :
    parse_markdown_file md2htmlId yamlSimple ⟨2026, 1, 1⟩ "post"
        ("---\ndate: 24-02-2026\n---\nbody") = ParseResult.crash
    ∧ main md2htmlId yamlSimple ⟨2026, 1, 1⟩
        ⟨some "TPL", some "LST", [("post", "---\ndate: 24-02-2026\n---\nbody")]⟩
      = ⟨false, [], none⟩ :=
  ⟨by decide, by decide⟩

/-- C1 witness: a document with no date entry loads with the current
date, as does one whose date value is neither string nor datetime; one
with an unparseable date string crashes, which aborts the run. -/
theorem c1_witness :
    (∃ p, parse_markdown_file md2htmlId yamlSimple ⟨2026, 2, 3⟩ "post"
        ("---\ntitle: T\n---\nbody") = ParseResult.ok p ∧ p.date = ⟨2026, 2, 3⟩)
    ∧ (∃ p, parse_markdown_file md2htmlId
          (fun _ => YamlResult.mapping [("date", YVal.vOther)]) ⟨2026, 2, 3⟩ "post"
          ("---\ntitle: T\n---\nbody") = ParseResult.ok p ∧ p.date = ⟨2026, 2, 3⟩)
    ∧ parse_markdown_file md2htmlId yamlSimple ⟨2026, 2, 3⟩ "post"
        ("---\ndate: 24-02-2026\n---\nbody") = ParseResult.crash
    ∧ main md2htmlId yamlSimple ⟨2026, 2, 3⟩
        ⟨some "TPL", some "LST", [("post", "---\ndate: 24-02-2026\n---\nbody")]⟩
      = ⟨false, [], none⟩ := by
  refine ⟨?_, ?_, ?_, ?_⟩
  · exact (c1_amended_date_policy md2htmlId yamlSimple ⟨2026, 2, 3⟩ "post"
      ("---\ntitle: T\n---\nbody") "title: T" "body" [("title", YVal.vStr "T")]
      (by decide) rfl).1 rfl
  · exact (c1_amended_date_policy md2htmlId
      (fun _ => YamlResult.mapping [("date", YVal.vOther)]) ⟨2026, 2, 3⟩ "post"
      ("---\ntitle: T\n---\nbody") "title: T" "body" [("date", YVal.vOther)]
      (by decide) rfl).1 rfl
  · exact (c1_amended_date_policy md2htmlId yamlSimple ⟨2026, 2, 3⟩ "post"
      ("---\ndate: 24-02-2026\n---\nbody") "date: 24-02-2026" "body"
      [("date", YVal.vStr "24-02-2026")] (by decide) rfl).2.1 "24-02-2026" rfl
      (by decide)
  · have hc := c1_amended_date_policy md2htmlId yamlSimple ⟨2026, 2, 3⟩ "post"
      ("---\ndate: 24-02-2026\n---\nbody") "date: 24-02-2026" "body"
      [("date", YVal.vStr "24-02-2026")] (by decide) rfl
    exact hc.2.2 (hc.2.1 "24-02-2026" rfl (by decide)) "TPL" (some "LST") [] []

/-- C2 as corrected: a missing listing document is not fatal — the
Listing Updater prints an error and skips the write, and the run still
terminates normally (exit 0) with no listing output. -/
theorem c2_missing_listing_nonfatal (md2html : String → String)
    (yamlLoad : String → YamlResult)
    (now : PDateTime) (t : String) (files : List (String × String))
    (posts : List Post)
    (h : collectPosts md2html yamlLoad now files = some posts) :
    (main md2html yamlLoad now ⟨some t, none, files⟩).exitOk = true
    ∧ (main md2html yamlLoad now ⟨some t, none, files⟩).listingOut = none := by
  unfold main
  dsimp only
  by_cases he : files.isEmpty = true
  · rw [if_pos he]
    exact ⟨rfl, rfl⟩
  · rw [if_neg he, h]
    cases posts <;> exact ⟨rfl, rfl⟩

/-- C2 counterexample to the claim as stated: with the listing document
missing but a valid post present, the run completes with normal
termination (it does not abort), writing the article page and no
listing. -/
theorem c2_counterexample :
    main md2htmlId yamlSimple ⟨2026, 1, 1⟩
        ⟨some "TPL", none, [("post", "---\ntitle: T\n---\nbody")]⟩
      = ⟨true, [("post.html", "TPL")], none⟩ := by decide

/-- C2 witness: the corrected statement at a concrete input. -/
theorem c2_witness :
    (main md2htmlId yamlSimple ⟨2026, 1, 1⟩
        ⟨some "TPL", none, [("post", "---\ntitle: T\n---\nbody")]⟩).exitOk = true
    ∧ (main md2htmlId yamlSimple ⟨2026, 1, 1⟩
        ⟨some "TPL", none, [("post", "---\ntitle: T\n---\nbody")]⟩).listingOut = none :=
  c2_missing_listing_nonfatal md2htmlId yamlSimple ⟨2026, 1, 1⟩ "TPL"
    [("post", "---\ntitle: T\n---\nbody")] _ rfl

/-- A skipped file contributes nothing to the collected posts. -/
theorem collectPosts_skip (md2html : String → String)
    (yamlLoad : String → YamlResult)
    (now : PDateTime) (stem c : String)
    (h : parse_markdown_file md2html yamlLoad now stem c = ParseResult.skip) :
    ∀ pre suf, collectPosts md2html yamlLoad now (pre ++ (stem, c) :: suf)
      = collectPosts md2html yamlLoad now (pre ++ suf) := by
  intro pre
  induction pre with
  | nil => intro suf; simp only [List.nil_append, collectPosts, h]
  | cons hd tl ih =>
    intro suf
    obtain ⟨s0, c0⟩ := hd
    simp only [List.cons_append, collectPosts, List.append_eq]
    rw [ih]

/-- C5 as corrected: a document without the frontmatter delimiter pair,
or whose frontmatter block makes the YAML loader raise a parse error,
is skipped per-file and non-fatally — it yields no Post, hence no
article page and no listing card, and the run over the remaining files
is exactly the run without that file.  But a frontmatter block the YAML
loader accepts as a non-mapping value (plain scalar, sequence, or `None`
for an empty block) raises an uncaught `AttributeError` at
`frontmatter.get`, aborting the entire run with no output. -/
theorem c5_frontmatter_skip (md2html : String → String)
    (yamlLoad : String → YamlResult)
    (now : PDateTime) (stem c : String) :
    (fmMatch c = none →
      parse_markdown_file md2html yamlLoad now stem c = ParseResult.skip)
    ∧ (∀ fmText body e, fmMatch c = some (fmText, body) →
        yamlLoad fmText = YamlResult.err e →
        parse_markdown_file md2html yamlLoad now stem c = ParseResult.skip)
    ∧ (parse_markdown_file md2html yamlLoad now stem c = ParseResult.skip →
        ∀ t l pre suf,
          main md2html yamlLoad now ⟨t, l, pre ++ (stem, c) :: suf⟩
            = main md2html yamlLoad now ⟨t, l, pre ++ suf⟩)
    ∧ (∀ fmText body, fmMatch c = some (fmText, body) →
        yamlLoad fmText = YamlResult.nonMapping →
        parse_markdown_file md2html yamlLoad now stem c = ParseResult.crash)
    ∧ (parse_markdown_file md2html yamlLoad now stem c = ParseResult.crash →
        ∀ (tp : String) (l : Option String) (pre suf : List (String × String)),
          main md2html yamlLoad now ⟨some tp, l, pre ++ (stem, c) :: suf⟩
            = ⟨false, [], none⟩) := by
  refine ⟨?_, ?_, ?_, ?_, ?_⟩
  · intro h
    unfold parse_markdown_file
    rw [h]
  · intro fmText body e hfm hyl
    unfold parse_markdown_file
    rw [hfm]
    dsimp only
    rw [hyl]
  · intro hskip t l pre suf
    have hc := collectPosts_skip md2html yamlLoad now stem c hskip pre suf
    unfold main
    dsimp only
    cases t with
    | none => rfl
    | some tpl =>
      dsimp only
      have hne : ¬ ((pre ++ (stem, c) :: suf).isEmpty = true) := by
        simp [List.isEmpty_iff]
      rw [if_neg hne, hc]
      by_cases hre : (pre ++ suf).isEmpty = true
      · rw [if_pos hre]
        have : pre ++ suf = [] := List.isEmpty_iff.mp hre
        rw [this]
        rfl
      · rw [if_neg hre]
  · intro fmText body hfm hyl
    unfold parse_markdown_file
    rw [hfm]
    dsimp only
    rw [hyl]
  · intro hcrash tp l pre suf
    exact main_crash_abort md2html yamlLoad now stem c hcrash tp l pre suf

/-- C5 counterexample to the claim as stated: a document whose
frontmatter block is a plain scalar — which cannot be parsed as
structured key/value data, yet is a successful non-mapping YAML parse —
is not skipped: the parse raises, and the run aborts losing the other
valid document too. -/
theorem c5_counterexample :
    parse_markdown_file md2htmlId yamlSimple ⟨2026, 1, 1⟩ "bad"
        ("---\nplain scalar text\n---\nbody") = ParseResult.crash
    ∧ main md2htmlId yamlSimple ⟨2026, 1, 1⟩
        ⟨some "TPL", some "LST",
         [("bad", "---\nplain scalar text\n---\nbody"),
          ("good", "---\ntitle: T\n---\nbody")]⟩
      = ⟨false, [], none⟩ :=
  ⟨by decide, by decide⟩

/-- C5 witness: a frontmatterless file is skipped and its presence does
not change the run; a file whose frontmatter the YAML loader rejects is
skipped too; a non-mapping frontmatter crashes and aborts the run. -/
theorem c5_witness :
    main md2htmlId yamlSimple ⟨2026, 1, 1⟩
        ⟨some "TPL", some "LST", [("bad", "no frontmatter here"), ("good", "---\ntitle: T\n---\nbody")]⟩
      = main md2htmlId yamlSimple ⟨2026, 1, 1⟩
        ⟨some "TPL", some "LST", [("good", "---\ntitle: T\n---\nbody")]⟩
    ∧ parse_markdown_file md2htmlId (fun _ => YamlResult.err "bad yaml") ⟨2026, 1, 1⟩
        "m" ("---\ntitle: T\n---\nbody") = ParseResult.skip
    ∧ main md2htmlId yamlSimple ⟨2026, 1, 1⟩
        ⟨some "TPL", some "LST", [("bad2", "---\njust text\n---\nbody")]⟩
      = ⟨false, [], none⟩ := by
  refine ⟨?_, ?_, ?_⟩
  · exact (c5_frontmatter_skip md2htmlId yamlSimple ⟨2026, 1, 1⟩ "bad"
      ("no frontmatter here")).2.2.1
      ((c5_frontmatter_skip md2htmlId yamlSimple ⟨2026, 1, 1⟩ "bad"
        ("no frontmatter here")).1 (by decide))
      (some "TPL") (some "LST") [] [("good", "---\ntitle: T\n---\nbody")]
  · exact (c5_frontmatter_skip md2htmlId (fun _ => YamlResult.err "bad yaml")
      ⟨2026, 1, 1⟩ "m" ("---\ntitle: T\n---\nbody")).2.1 "title: T" "body"
      "bad yaml" (by decide) rfl
  · have hc := c5_frontmatter_skip md2htmlId yamlSimple ⟨2026, 1, 1⟩ "bad2"
      ("---\njust text\n---\nbody")
    exact hc.2.2.2.2 (hc.2.2.2.1 "just text" "body" (by decide) rfl)
      "TPL" (some "LST") [] []

/-- A successful `dropLit` splits off exactly the literal. -/
theorem dropLit_eq {lit l r : List Char} (h : dropLit lit l = some r) :
    l = lit ++ r := by
  unfold dropLit at h
  split at h
  · next hp =>
    obtain ⟨t, ht⟩ := List.isPrefixOf_iff_prefix.mp hp
    injection h with h
    subst ht
    rw [← h, List.drop_left]
  · exact absurd h (by simp)

/-- A successful closing-sequence match splits off exactly the matched
text. -/
theorem matchCloseSeq_eq {l m r : List Char}
    (h : matchCloseSeq l = some (m, r)) : l = m ++ r := by
  unfold matchCloseSeq at h
  cases h1 : dropLit divCloseL l with
  | none => rw [h1] at h; exact absurd h (by simp)
  | some r1 =>
    rw [h1] at h
    dsimp only at h
    cases h2 : dropLit divCloseL (r1.dropWhile isPySpace) with
    | none => rw [h2] at h; exact absurd h (by simp)
    | some r2 =>
      rw [h2] at h
      dsimp only at h
      cases h3 : dropLit mainCloseL (r2.dropWhile isPySpace) with
      | none => rw [h3] at h; exact absurd h (by simp)
      | some r3 =>
        rw [h3] at h
        dsimp only at h
        injection h with h
        injection h with hm hr
        have e1 := dropLit_eq h1
        have e2 := dropLit_eq h2
        have e3 := dropLit_eq h3
        have w1 : r1.takeWhile isPySpace ++ r1.dropWhile isPySpace = r1 :=
          List.takeWhile_append_dropWhile isPySpace r1
        have w2 : r2.takeWhile isPySpace ++ r2.dropWhile isPySpace = r2 :=
          List.takeWhile_append_dropWhile isPySpace r2
        subst hr
        rw [← hm, e1]
        simp only [List.append_assoc]
        rw [← e3, w2, ← e2, w1]

/-- A successful lazy search splits the input into the inner region, the
matched closing text and the rest. -/
theorem findCloseList_eq : ∀ {l inner m r : List Char},
    findCloseList l = some (inner, m, r) → l = inner ++ m ++ r := by
  intro l
  induction l with
  | nil => intro inner m r h; exact absurd h (by simp [findCloseList])
  | cons c cs ih =>
    intro inner m r h
    unfold findCloseList at h
    cases hm : matchCloseSeq (c :: cs) with
    | some mr =>
      rw [hm] at h
      obtain ⟨m0, r0⟩ := mr
      dsimp only at h
      injection h with h
      injection h with hi h
      injection h with hm0 hr0
      subst hi hm0 hr0
      simpa using matchCloseSeq_eq hm
    | none =>
      rw [hm] at h
      dsimp only at h
      cases hf : findCloseList cs with
      | none => rw [hf] at h; exact absurd h (by simp)
      | some imr =>
        rw [hf] at h
        obtain ⟨i0, m0, r0⟩ := imr
        dsimp only at h
        injection h with h
        injection h with hi h
        injection h with hm0 hr0
        subst hm0 hr0
        rw [← hi]
        have := ih hf
        simp [this]

/-- A successful regex scan splits the input into the prefix, the
opening literal, the inner region, the matched closing text and the
rest. -/
theorem splitMatch_eq : ∀ {l pre inner m r : List Char},
    splitMatch l = some (pre, inner, m, r) →
    l = pre ++ openTagL ++ inner ++ m ++ r := by
  intro l
  induction l with
  | nil => intro pre inner m r h; exact absurd h (by simp [splitMatch])
  | cons c cs ih =>
    intro pre inner m r h
    unfold splitMatch at h
    by_cases hp : openTagL.isPrefixOf (c :: cs)
    · rw [if_pos hp] at h
      cases hf : findCloseList ((c :: cs).drop openTagL.length) with
      | some imr =>
        rw [hf] at h
        obtain ⟨i0, m0, r0⟩ := imr
        dsimp only at h
        injection h with h
        injection h with hpre h
        injection h with hi h
        injection h with hm0 hr0
        subst hi hm0 hr0
        rw [← hpre]
        obtain ⟨t, ht⟩ := List.isPrefixOf_iff_prefix.mp hp
        have hdrop : (c :: cs).drop openTagL.length = t := by
          rw [← ht, List.drop_left]
        rw [hdrop] at hf
        have := findCloseList_eq hf
        subst this
        simp [← ht]
      | none =>
        rw [hf] at h
        dsimp only at h
        cases hs : splitMatch cs with
        | none => rw [hs] at h; exact absurd h (by simp)
        | some pimr =>
          rw [hs] at h
          obtain ⟨p0, i0, m0, r0⟩ := pimr
          dsimp only at h
          injection h with h
          obtain ⟨hpre, hrest⟩ := Prod.mk.injEq .. ▸ h
          obtain ⟨hi, hmr⟩ := Prod.mk.injEq .. ▸ hrest
          obtain ⟨hm0, hr0⟩ := Prod.mk.injEq .. ▸ hmr
          subst hi hm0 hr0
          rw [← hpre]
          have := ih hs
          simp [this]
    · rw [if_neg hp] at h
      cases hs : splitMatch cs with
      | none => rw [hs] at h; exact absurd h (by simp)
      | some pimr =>
        rw [hs] at h
        obtain ⟨p0, i0, m0, r0⟩ := pimr
        dsimp only at h
        injection h with h
        injection h with hpre h
        injection h with hi h
        injection h with hm0 hr0
        subst hi hm0 hr0
        rw [← hpre]
        have := ih hs
        simp [this]

/-- Parsing an empty template succeeds with no items, at any fuel. -/
theorem parseTemplGo_nil_input (F : List Char) : parseTemplGo F [] = some [] := by
  cases F <;> rfl

/-- A backslash-free chunk of the replacement template is parsed as its
literal characters, one fuel cell per character. -/
theorem parseTemplGo_litfree {cs : List Char} (h : ∀ c ∈ cs, c ≠ '\\') :
    ∀ (F rest : List Char), cs.length ≤ F.length →
      parseTemplGo F (cs ++ rest)
        = (parseTemplGo (F.drop cs.length) rest).map (fun ts => cs.map TItem.lit ++ ts) := by
  induction cs with
  | nil =>
    intro F rest _
    simp
  | cons c cs2 ih =>
    intro F rest hF
    cases F with
    | nil => simp at hF
    | cons f0 F2 =>
      have hc : c ≠ '\\' := h c (List.mem_cons_self c cs2)
      have hb : (c == '\\') = false := by simp [hc]
      have hstep : parseTemplGo (f0 :: F2) (c :: (cs2 ++ rest))
          = (parseTemplGo F2 (cs2 ++ rest)).map (fun ts => TItem.lit c :: ts) := by
        simp [parseTemplGo, hb]
      show parseTemplGo (f0 :: F2) (c :: (cs2 ++ rest)) = _
      rw [hstep, ih (fun c2 hc2 => h c2 (List.mem_cons_of_mem _ hc2)) F2 rest
        (by simpa using hF)]
      have hdrop : (f0 :: F2).drop (c :: cs2).length = F2.drop cs2.length := rfl
      rw [hdrop]
      cases parseTemplGo (F2.drop cs2.length) rest <;> simp

/-- Parsing the padding and the trailing group-2 reference, with any
sufficiently long fuel. -/
theorem parseTemplGo_tail (F : List Char) (hF : 14 ≤ F.length) :
    parseTemplGo F (padL ++ ['\\', '2'])
      = some (padL.map TItem.lit ++ [TItem.grp 2]) := by
  have hnb : ∀ c ∈ padL, c ≠ '\\' := by decide
  have hlen : padL.length ≤ F.length := by
    have : padL.length = 13 := rfl
    omega
  rw [parseTemplGo_litfree hnb F ['\\', '2'] hlen]
  have hne : F.drop padL.length ≠ [] := by
    have h13 : padL.length = 13 := rfl
    intro he
    have := congrArg List.length he
    simp [h13] at this
    omega
  obtain ⟨g0, G, hG⟩ := List.exists_cons_of_ne_nil hne
  rw [hG]
  have hesc : parseTemplGo (g0 :: G) ['\\', '2'] = some [TItem.grp 2] := by
    cases G <;> rfl
  rw [hesc]
  rfl

/-- Parsing the Updater's replacement template with backslash-free card
markup yields a group-1 reference, the literal newline, the card
characters, the literal padding, and a group-2 reference. -/
theorem parseTemplate_repl {cards : List Char} (h : ∀ c ∈ cards, c ≠ '\\') :
    parseTemplGo (replTemplate cards) (replTemplate cards)
      = some (TItem.grp 1 :: TItem.lit '\n' ::
          (cards.map TItem.lit ++ (padL.map TItem.lit ++ [TItem.grp 2]))) := by
  have step1 : ∀ (f0 : Char) (fl tail : List Char),
      parseTemplGo (f0 :: fl) ('\\' :: '1' :: '\n' :: tail)
        = (parseTemplGo fl ('\n' :: tail)).map (fun ts => TItem.grp 1 :: ts) :=
    fun _ _ _ => rfl
  have step2 : ∀ (f0 : Char) (fl tail : List Char),
      parseTemplGo (f0 :: fl) ('\n' :: tail)
        = (parseTemplGo fl tail).map (fun ts => TItem.lit '\n' :: ts) :=
    fun _ _ _ => rfl
  show parseTemplGo ('\\' :: '1' :: '\n' :: (cards ++ padL ++ ['\\', '2']))
      ('\\' :: '1' :: '\n' :: (cards ++ padL ++ ['\\', '2'])) = _
  rw [step1, step2]
  have hassoc : cards ++ padL ++ ['\\', '2'] = cards ++ (padL ++ ['\\', '2']) :=
    List.append_assoc cards padL ['\\', '2']
  rw [hassoc]
  have hlen : cards.length ≤ ('\n' :: (cards ++ (padL ++ ['\\', '2']))).length := by
    simp
    omega
  rw [parseTemplGo_litfree h ('\n' :: (cards ++ (padL ++ ['\\', '2'])))
    (padL ++ ['\\', '2']) hlen]
  have hdlen : (14 : Nat)
      ≤ (('\n' :: (cards ++ (padL ++ ['\\', '2']))).drop cards.length).length := by
    have hp : padL.length = 13 := rfl
    simp [hp]
    omega
  rw [parseTemplGo_tail _ hdlen]
  rfl

/-- Expanding a run of literal items emits exactly those characters. -/
theorem expandItems_lits (g0 g1 g2 : List Char) (cs : List Char) (ts : List TItem) :
    expandItems g0 g1 g2 (cs.map TItem.lit ++ ts) = cs ++ expandItems g0 g1 g2 ts := by
  induction cs with
  | nil => rfl
  | cons c cs2 ih => simp [expandItems, ih]

/-- When the marker pattern does not match, `re.sub` leaves the text
unchanged at any fuel. -/
theorem reSubGo_none {l : List Char} (items : List TItem)
    (h : splitMatch l = none) : ∀ fuel, reSubGo items fuel l = l := by
  intro fuel
  cases fuel with
  | zero => rfl
  | succ n => simp [reSubGo, h]

/-- With exactly one match in the document and backslash-free card
markup, `re.sub` replaces that match with the literal splice and copies
everything else. -/
theorem reSubGo_single {l pre inner m r : List Char} (cards : List Char)
    (hs : splitMatch l = some (pre, inner, m, r))
    (hr : splitMatch r = none) :
    reSubGo (TItem.grp 1 :: TItem.lit '\n' ::
        (cards.map TItem.lit ++ (padL.map TItem.lit ++ [TItem.grp 2]))) l.length l
      = pre ++ openTagL ++ '\n' :: (cards ++ padL ++ m ++ r) := by
  cases l with
  | nil => exact absurd hs (by simp [splitMatch])
  | cons c cs =>
    show reSubGo _ (cs.length + 1) (c :: cs) = _
    rw [reSubGo, hs]
    dsimp only
    rw [reSubGo_none _ hr]
    simp [expandItems, expandItems_lits, padL]

/-- With exactly one match in the listing document and backslash-free
card markup, the Updater rewrites the marker region to the fresh card
markup and copies every character outside it. -/
theorem update_blog_listing_single {pre inner close rest : List Char}
    (L : String) (posts : List Post)
    (hnb : ∀ c ∈ (cardsHtml posts).data, c ≠ '\\')
    (hs : splitMatch L.data = some (pre, inner, close, rest))
    (hr : splitMatch rest = none) :
    update_blog_listing (some L) posts
      = ListingResult.written (String.mk
          (pre ++ openTagL ++ '\n' :: ((cardsHtml posts).data ++ padL ++ close ++ rest))) := by
  unfold update_blog_listing reSubStr
  dsimp only
  rw [parseTemplate_repl hnb]
  dsimp only
  rw [reSubGo_single (cardsHtml posts).data hs hr]

/-- With backslash-free card markup and no pattern match, the Updater
writes the document content unchanged. -/
theorem update_blog_listing_nomatch (L : String) (posts : List Post)
    (hnb : ∀ c ∈ (cardsHtml posts).data, c ≠ '\\')
    (hn : splitMatch L.data = none) :
    update_blog_listing (some L) posts = ListingResult.written L := by
  unfold update_blog_listing reSubStr
  dsimp only
  rw [parseTemplate_repl hnb]
  dsimp only
  rw [reSubGo_none _ hn]

/-- Listing document with one marker region, for concrete scenarios. -/
def demoListing : String :=
  "HEAD<div class=\"blog-posts\" id=\"blog-posts\">old</div> </div> </main>TAIL"

/-- C8 as corrected: when the generated card markup contains no
backslash (as all fixed markup does) and the listing document contains
the marker region exactly once, the Updater replaces only the region's
inner content with the card markup — the input decomposes as prefix,
opening tag, inner region, closing sequence and suffix, and the output
keeps every character outside the inner region; with no match the
content is written unchanged.  A backslash inside the markup is instead
processed as a `re.sub` template escape (a group reference, or an error
that aborts the run). -/
theorem c8_frame_splice (L : String) (posts : List Post)
    (hnb : ∀ c ∈ (cardsHtml posts).data, c ≠ '\\') :
    (∀ pre inner close rest : List Char,
      splitMatch L.data = some (pre, inner, close, rest) →
      splitMatch rest = none →
      L.data = pre ++ openTagL ++ inner ++ close ++ rest
      ∧ update_blog_listing (some L) posts
        = ListingResult.written (String.mk
            (pre ++ openTagL ++ '\n' :: ((cardsHtml posts).data ++ padL ++ close ++ rest))))
    ∧ (splitMatch L.data = none →
        update_blog_listing (some L) posts = ListingResult.written L) := by
  constructor
  · intro pre inner close rest hs hr
    exact ⟨splitMatch_eq hs, update_blog_listing_single L posts hnb hs hr⟩
  · intro hn
    exact update_blog_listing_nomatch L posts hnb hn

/-- Post whose image filename contains a backslash before the letter
`q` (a Windows-style path), which reaches the card markup verbatim. -/
def demoPostBSq : Post :=
  { title := "T", date := ⟨2026, 1, 1⟩,
    date_formatted := "January 01, 2026", tags := [], excerpt := "",
    image := "ico\\qn.png", content := "", reading_time := 1, slug := "q" }

/-- C8 counterexample to the claim as stated: with a post whose card
markup contains a backslash before the letter `q`, `re.sub` raises on
the replacement template, so the Updater performs no replacement and
the run aborts — the marker region is not rewritten with the card
markup as the claim asserts. -/
theorem c8_counterexample :
    update_blog_listing (some demoListing) [demoPostBSq] = ListingResult.reError := by
  decide

/-- C8 witness: the frame property at a concrete listing document. -/
theorem c8_witness :
    demoListing.data
      = ("HEAD").data ++ openTagL ++ ("old").data
          ++ ("</div> </div> </main>").data ++ ("TAIL").data
    ∧ update_blog_listing (some demoListing) []
      = ListingResult.written (String.mk
          (("HEAD").data ++ openTagL ++ '\n' :: ((cardsHtml []).data ++ padL
            ++ ("</div> </div> </main>").data ++ ("TAIL").data))) :=
  (c8_frame_splice demoListing [] (by decide)).1 ("HEAD").data ("old").data
    ("</div> </div> </main>").data ("TAIL").data (by decide) (by decide)

/-- C6: when no valid Posts exist (every file is skipped, or none are
present), the run still succeeds, writes no article pages, and rewrites
the listing's marker region to exactly the no-posts placeholder. -/
theorem c6_empty_posts_placeholder (md2html : String → String)
    (yamlLoad : String → YamlResult)
    (now : PDateTime) (t L : String) (files : List (String × String))
    (pre inner close rest : List Char)
    (hcol : collectPosts md2html yamlLoad now files = some [])
    (hs : splitMatch L.data = some (pre, inner, close, rest))
    (hr : splitMatch rest = none) :
    main md2html yamlLoad now ⟨some t, some L, files⟩
      = ⟨true, [],
         some (String.mk
           (pre ++ openTagL ++ '\n' :: (noPostsMsg.data ++ padL ++ close ++ rest)))⟩ := by
  have hup := update_blog_listing_single L ([] : List Post) (by decide) hs hr
  have hcards : cardsHtml ([] : List Post) = noPostsMsg := rfl
  rw [hcards] at hup
  unfold main
  dsimp only
  by_cases he : files.isEmpty = true
  · rw [if_pos he, hup]
    rfl
  · rw [if_neg he, hcol]
    dsimp only
    rw [hup]
    rfl

/-- C6 witness: a run over one frontmatterless file and the concrete
listing document yields the placeholder splice, no articles, success. -/
theorem c6_witness :
    main md2htmlId yamlSimple ⟨2026, 1, 1⟩
        ⟨some "TPL", some demoListing, [("bad", "no frontmatter")]⟩
      = ⟨true, [],
         some (String.mk
           (("HEAD").data ++ openTagL ++ '\n' :: (noPostsMsg.data ++ padL
             ++ ("</div> </div> </main>").data ++ ("TAIL").data)))⟩ :=
  c6_empty_posts_placeholder md2htmlId yamlSimple ⟨2026, 1, 1⟩ "TPL" demoListing
    [("bad", "no frontmatter")] ("HEAD").data ("old").data
    ("</div> </div> </main>").data ("TAIL").data (by decide) (by decide) (by decide)

/-- Parsing one file does not depend on the current time when its date
entry is given as a string or datetime. -/
theorem parse_markdown_file_indep (md2html : String → String)
    (yamlLoad : String → YamlResult) (stem c : String)
    (n1 n2 : PDateTime)
    (h : ∀ fmText body fm, fmMatch c = some (fmText, body) →
      yamlLoad fmText = YamlResult.mapping fm → dateGivenB fm = true) :
    parse_markdown_file md2html yamlLoad n1 stem c
      = parse_markdown_file md2html yamlLoad n2 stem c := by
  unfold parse_markdown_file
  cases hfm : fmMatch c with
  | none => rfl
  | some fb =>
    obtain ⟨fmText, body⟩ := fb
    dsimp only
    cases hyl : yamlLoad fmText with
    | err e => rfl
    | nonMapping => rfl
    | mapping fm =>
      dsimp only
      have hd := h fmText body fm hfm hyl
      unfold dateGivenB at hd
      have hdo : dateOf fm n1 = dateOf fm n2 := by
        unfold dateOf
        cases hl : lookupY fm "date" with
        | none => rw [hl] at hd; exact absurd hd (by simp)
        | some v =>
          rw [hl] at hd
          cases v with
          | vStr s => rfl
          | vDatetime d => rfl
          | vDate d => exact absurd hd (by simp)
          | vList l => exact absurd hd (by simp)
          | vOther => exact absurd hd (by simp)
      rw [hdo]

/-- The collected posts do not depend on the current time when every
file's date entry is given. -/
theorem collectPosts_indep (md2html : String → String)
    (yamlLoad : String → YamlResult)
    (n1 n2 : PDateTime) (files : List (String × String))
    (h : ∀ sc : String × String, sc ∈ files → ∀ fmText body fm,
      fmMatch sc.2 = some (fmText, body) → yamlLoad fmText = YamlResult.mapping fm →
      dateGivenB fm = true) :
    collectPosts md2html yamlLoad n1 files
      = collectPosts md2html yamlLoad n2 files := by
  induction files with
  | nil => rfl
  | cons hd tl ih =>
    obtain ⟨stem, c⟩ := hd
    simp only [collectPosts]
    rw [parse_markdown_file_indep md2html yamlLoad stem c n1 n2
      (fun ft b fm hf hy => h (stem, c) (List.mem_cons_self _ _) ft b fm hf hy)]
    rw [ih (fun sc hm => h sc (List.mem_cons_of_mem _ hm))]

/-- C7 as corrected: when every source document's metadata date is
present as a string or datetime value, the entire run is a deterministic
function of the input files (independent of the current time, hence
re-running on identical inputs is byte-identical); and `date_formatted`
of any produced Post is always the pure formatting of its `date`. -/
theorem c7_deterministic_when_dates_given (md2html : String → String)
    (yamlLoad : String → YamlResult) (fs : FS)
    (n1 n2 : PDateTime)
    (h : ∀ sc : String × String, sc ∈ fs.mdFiles → ∀ fmText body fm,
      fmMatch sc.2 = some (fmText, body) → yamlLoad fmText = YamlResult.mapping fm →
      dateGivenB fm = true) :
    main md2html yamlLoad n1 fs = main md2html yamlLoad n2 fs
    ∧ ∀ now stem c p,
        parse_markdown_file md2html yamlLoad now stem c = ParseResult.ok p →
        p.date_formatted = pyStrftimeLong p.date := by
  constructor
  · unfold main
    rw [collectPosts_indep md2html yamlLoad n1 n2 fs.mdFiles h]
  · intro now stem c p hok
    unfold parse_markdown_file at hok
    cases hfm : fmMatch c with
    | none => rw [hfm] at hok; simp at hok
    | some fb =>
      obtain ⟨ft, b⟩ := fb
      rw [hfm] at hok
      dsimp only at hok
      cases hyl : yamlLoad ft with
      | err e => rw [hyl] at hok; simp at hok
      | nonMapping => rw [hyl] at hok; simp at hok
      | mapping fm =>
        rw [hyl] at hok
        dsimp only at hok
        cases hdo : dateOf fm now with
        | none => simp [hdo] at hok
        | some d =>
          rw [hdo] at hok
          rw [ParseResult.ok.injEq] at hok
          subst hok
          rfl

/-- File set with a post carrying no date entry: the parse falls back to
`datetime.now()`. -/
def demoDatelessFs : FS := ⟨some dateTok, none, [("a", "---\nt: 1\n---\nw")]⟩

/-- File set whose single post has a parseable date string. -/
def demoDatedFs : FS := ⟨some "TPL", none, [("a", "---\ndate: 2026-02-24\n---\nw")]⟩

/-- C7 counterexample to the claim as stated: with a post whose metadata
has no date, the written article bytes depend on the current time, so
the transform is not a function of the input files alone. -/
theorem c7_counterexample :
    main md2htmlId yamlSimple ⟨2026, 1, 1⟩ demoDatelessFs
      ≠ main md2htmlId yamlSimple ⟨2026, 2, 1⟩ demoDatelessFs := by decide

/-- C7 witness: with the date given, two runs at different current times
agree, and the produced Post formats its date purely. -/
theorem c7_witness :
    main md2htmlId yamlSimple ⟨2026, 1, 1⟩ demoDatedFs
      = main md2htmlId yamlSimple ⟨2027, 5, 5⟩ demoDatedFs
    ∧ ∀ p, parse_markdown_file md2htmlId yamlSimple ⟨2026, 1, 1⟩ "a"
        ("---\ndate: 2026-02-24\n---\nw") = ParseResult.ok p →
        p.date_formatted = pyStrftimeLong p.date := by
  have hgiven : ∀ sc : String × String, sc ∈ demoDatedFs.mdFiles →
      ∀ fmText body fm, fmMatch sc.2 = some (fmText, body) →
      yamlSimple fmText = YamlResult.mapping fm → dateGivenB fm = true := by
    intro sc hm ft b fm hf hy
    have hsc : sc = ("a", "---\ndate: 2026-02-24\n---\nw") := by
      simpa [demoDatedFs] using hm
    subst hsc
    have he : fmMatch ("---\ndate: 2026-02-24\n---\nw")
        = some ("date: 2026-02-24", "w") := by decide
    rw [he] at hf
    injection hf with hf
    injection hf with hf1 hf2
    subst hf1
    have hys : yamlSimple ("date: 2026-02-24")
        = YamlResult.mapping [("date", YVal.vStr "2026-02-24")] := rfl
    rw [hys] at hy
    injection hy with hy
    subst hy
    rfl
  have hmain := c7_deterministic_when_dates_given md2htmlId yamlSimple
    demoDatedFs ⟨2026, 1, 1⟩ ⟨2027, 5, 5⟩ hgiven
  exact ⟨hmain.1, fun p hp => hmain.2 ⟨2026, 1, 1⟩ "a" _ p hp⟩

instance : IsTotal Post postGe :=
  ⟨by
    intro a b
    simp only [postGe, dateLt, decide_eq_false_iff_not, not_or, not_and]
    omega⟩

instance : IsTrans Post postGe :=
  ⟨by
    intro a b c hab hbc
    simp only [postGe, dateLt, decide_eq_false_iff_not] at *
    omega⟩

/-- The newest-first sort really is sorted: every element is not older
than any later element. -/
theorem sortPostsDesc_sorted (posts : List Post) :
    List.Sorted postGe (sortPostsDesc posts) :=
  List.sorted_insertionSort postGe posts

/-- With pairwise-distinct slugs, the source's index search finds the
position of the element itself. -/
theorem firstSlugIdx_get (l : List Post) (hnd : (l.map Post.slug).Nodup) :
    ∀ (i : Nat) (hi : i < l.length), firstSlugIdx (l.get ⟨i, hi⟩).slug l = some i := by
  induction l with
  | nil => intro i hi; exact absurd hi (by simp)
  | cons p ps ih =>
    intro i hi
    cases i with
    | zero => simp [firstSlugIdx]
    | succ n =>
      have hn : n < ps.length := by simpa using Nat.lt_of_succ_lt_succ hi
      have hget : (p :: ps).get ⟨n + 1, hi⟩ = ps.get ⟨n, hn⟩ := rfl
      rw [hget]
      have hnd2 : (∀ x ∈ ps, ¬ x.slug = p.slug) ∧ (ps.map Post.slug).Nodup := by
        simpa using hnd
      have hne : ¬ (p.slug == (ps.get ⟨n, hn⟩).slug) = true := by
        simp only [beq_iff_eq]
        intro he
        exact hnd2.1 (ps.get ⟨n, hn⟩) (List.get_mem ps n hn) he.symm
      unfold firstSlugIdx
      rw [if_neg hne, ih hnd2.2 n hn]
      rfl

/-- Positional read with a default equals the total read when in
bounds. -/
theorem getD_eq_get (l : List Post) (n : Nat) (h : n < l.length) :
    l.getD n default = l.get ⟨n, h⟩ := by
  rw [List.getD_eq_getElem?_getD, List.getElem?_eq_getElem h]
  rfl

/-- C3: in the newest-first order with distinct slugs, the article
page's index search finds the post's own position; the previous
fragment links to the adjacent older post and the next fragment to the
adjacent newer post; the fragments are empty at the newest and oldest
boundaries, and both are empty when there is exactly one post. -/
theorem c3_prev_next_links (posts : List Post)
    (hnd : ((sortPostsDesc posts).map Post.slug).Nodup)
    (i : Nat) (hi : i < (sortPostsDesc posts).length) :
    currentIdxOf ((sortPostsDesc posts).get ⟨i, hi⟩).slug (sortPostsDesc posts) = (i : Int)
    ∧ (∀ hj : i + 1 < (sortPostsDesc posts).length,
        prevFragment (sortPostsDesc posts) (i : Int)
          = prevLinkHtml ((sortPostsDesc posts).get ⟨i + 1, hj⟩)
        ∧ dateLt ((sortPostsDesc posts).get ⟨i, hi⟩).date
            ((sortPostsDesc posts).get ⟨i + 1, hj⟩).date = false)
    ∧ (i = (sortPostsDesc posts).length - 1 →
        prevFragment (sortPostsDesc posts) (i : Int) = "")
    ∧ (∀ hj : i - 1 < (sortPostsDesc posts).length, 0 < i →
        nextFragment (sortPostsDesc posts) (i : Int)
          = nextLinkHtml ((sortPostsDesc posts).get ⟨i - 1, hj⟩)
        ∧ dateLt ((sortPostsDesc posts).get ⟨i - 1, hj⟩).date
            ((sortPostsDesc posts).get ⟨i, hi⟩).date = false)
    ∧ (i = 0 → nextFragment (sortPostsDesc posts) (i : Int) = "")
    ∧ ((sortPostsDesc posts).length = 1 →
        prevFragment (sortPostsDesc posts) (i : Int) = ""
        ∧ nextFragment (sortPostsDesc posts) (i : Int) = "") := by
  have hsort := sortPostsDesc_sorted posts
  refine ⟨?_, ?_, ?_, ?_, ?_, ?_⟩
  · unfold currentIdxOf
    rw [firstSlugIdx_get (sortPostsDesc posts) hnd i hi]
  · intro hj
    constructor
    · unfold prevFragment
      rw [if_pos (by omega)]
      have ht : ((i : Int) + 1).toNat = i + 1 := by omega
      rw [ht, getD_eq_get (sortPostsDesc posts) (i + 1) hj]
    · exact List.pairwise_iff_get.mp hsort ⟨i, hi⟩ ⟨i + 1, hj⟩
        (by exact Nat.lt_succ_self i)
  · intro he
    unfold prevFragment
    rw [if_neg (by omega)]
  · intro hj h0
    constructor
    · unfold nextFragment
      rw [if_pos (by omega)]
      have ht : ((i : Int) - 1).toNat = i - 1 := by omega
      rw [ht, getD_eq_get (sortPostsDesc posts) (i - 1) hj]
    · exact List.pairwise_iff_get.mp hsort ⟨i - 1, hj⟩ ⟨i, hi⟩
        (by exact Nat.sub_lt_of_pos_le (by omega) (by omega))
  · intro he
    subst he
    unfold nextFragment
    rw [if_neg (by omega)]
  · intro hlen
    have h0 : i = 0 := by omega
    subst h0
    constructor
    · unfold prevFragment
      rw [if_neg (by omega)]
    · unfold nextFragment
      rw [if_neg (by omega)]

/-- Newest demo post. -/
def demoPostA : Post :=
  { title := "A", date := ⟨2026, 3, 1⟩, date_formatted := "March 01, 2026",
    tags := [], excerpt := "", image := "", content := "", reading_time := 1,
    slug := "a" }

/-- Middle demo post. -/
def demoPostB : Post :=
  { title := "B", date := ⟨2026, 2, 1⟩, date_formatted := "February 01, 2026",
    tags := [], excerpt := "", image := "", content := "", reading_time := 1,
    slug := "b" }

/-- Oldest demo post. -/
def demoPostC : Post :=
  { title := "C", date := ⟨2026, 1, 1⟩, date_formatted := "January 01, 2026",
    tags := [], excerpt := "", image := "", content := "", reading_time := 1,
    slug := "c" }

/-- Three demo posts in scrambled input order. -/
def demoPosts3 : List Post := [demoPostC, demoPostA, demoPostB]

/-- C3 witness: with dates March > February > January, the middle page
links previous to the oldest and next to the newest; a singleton has
both fragments empty. -/
theorem c3_witness :
    currentIdxOf demoPostB.slug (sortPostsDesc demoPosts3) = (1 : Int)
    ∧ prevFragment (sortPostsDesc demoPosts3) 1 = prevLinkHtml demoPostC
    ∧ nextFragment (sortPostsDesc demoPosts3) 1 = nextLinkHtml demoPostA
    ∧ prevFragment (sortPostsDesc [demoPostA]) 0 = ""
    ∧ nextFragment (sortPostsDesc [demoPostA]) 0 = "" := by
  have h := c3_prev_next_links demoPosts3 (by decide) 1 (by decide)
  have h1 := c3_prev_next_links [demoPostA] (by decide) 0 (by decide)
  exact ⟨h.1, (h.2.1 (by decide)).1, (h.2.2.2.1 (by decide) (by decide)).1,
    (h1.2.2.2.2.2 rfl).1, (h1.2.2.2.2.2 rfl).2⟩

end BlogGen

